import Mathlib

/-!
# gotgbot: the update-acquisition core (`updater.go`) and `sendFile` (`ext/sendables.go`)

A shallow embedding of `updater.go` and of `Bot.sendFile`.  Stateful Go code is rendered
as the list of effects it performs, in program order; the local variables of `startPolling`
(`v`, `offset`, `clean`) form a `PollState` that is recovered by replaying the
assignments of an effect list (`exec`).

The collaborators outside these files (`encoding/json`, `os.Open`, `ext.Get`, `ext.Post`,
`ext.Bot.GetMe`, `initUpdate`) are not re-implemented: their results are inputs of the model
(`Env`, `StringsMarshal`, and the outcomes handed to the functions).
-/

namespace Gotgbot

/-! ## Go values -/

/-- A Go `[]byte`; `json.RawMessage` is one. -/
abbrev RawMessage := List UInt8

/-- Go: `type RawUpdate json.RawMessage`. -/
abbrev RawUpdate := RawMessage

/-- Smallest Go `int` (64-bit targets). -/
def minInt : Int := -9223372036854775808

/-- Largest Go `int` (64-bit targets). -/
def maxInt : Int := 9223372036854775807

/-- Reduction of a mathematical integer to the Go `int` it is stored as (two's complement). -/
def wrapInt (x : Int) : Int := (x + 9223372036854775808) % 18446744073709551616 - 9223372036854775808

/-- Go `a + b` on `int`. -/
def intAdd (a b : Int) : Int := wrapInt (a + b)

/-- Go `strconv.Itoa`. -/
def Itoa (i : Int) : String :=
  match i with
  | Int.ofNat n => Nat.repr n
  | Int.negSucc n => "-" ++ Nat.repr (n + 1)

/-- Go `url.Values` (`map[string][]string`), as an association list with one entry per key. -/
abbrev Values := List (String × List String)

/-- Go `url.Values.Add`: append `value` to the values of `key`. -/
def Values.Add : Values → String → String → Values
  | [], key, value => [(key, [value])]
  | (k, xs) :: rest, key, value =>
    if k = key then (k, xs ++ [value]) :: rest else (k, xs) :: Values.Add rest key value

/-- Go `url.Values.Set`: replace the values of `key` by the single `value`. -/
def Values.Set : Values → String → String → Values
  | [], key, value => [(key, [value])]
  | (k, xs) :: rest, key, value =>
    if k = key then (k, [value]) :: rest else (k, xs) :: Values.Set rest key value

/-- Go `url.Values.Get`: the first value of `key`, or `""`. -/
def Values.Get : Values → String → String
  | [], _ => ""
  | (k, xs) :: rest, key => if k = key then xs.headD "" else Values.Get rest key

/-- Go `errors.Wrap(err, msg)` / `errors.Wrapf` on a non-nil error, errors being their messages. -/
def Wrap (err msg : String) : String := msg ++ ": " ++ err

/-- The `ext.Response` envelope: `Result` is `none` for a nil `json.RawMessage`. -/
structure Response where
  Ok : Bool
  Result : Option RawMessage
  Description : String
  deriving DecidableEq, Repr

/-- What a call of `ext.Get` comes back with: `(r, nil)` or `(nil, err)`. -/
abbrev Outcome := Except String Response

/-- The collaborators of `updater.go` whose code lies outside it. -/
structure Env where
  /-- The call `json.Unmarshal(data, &rawUpdates)` on a nil `[]json.RawMessage`: the slice it leaves
  in `rawUpdates` and the error it returns. -/
  unmarshalRawMessages : RawMessage → List RawMessage × Option String
  /-- The call `json.Unmarshal(data, &bb)` on a `false` `bool`: the value left in `bb`, and the
  error returned. -/
  unmarshalBool : RawMessage → Bool × Option String
  /-- The field `UpdateId` of `initUpdate(raw, bot)`. -/
  updateId : RawUpdate → Int
  /-- `UpdateId` is a Go `int`. -/
  updateId_range : ∀ u, minInt ≤ updateId u ∧ updateId u ≤ maxInt

/-! ## Effects and the state of `startPolling` -/

/-- What the code of `updater.go` does, one constructor per kind of statement with an effect. -/
inductive Effect where
  /-- The call `ext.Bot{Token: token, ...}.GetMe()`. -/
  | getMe (token : String)
  /-- The call `ext.Get(bot, method, v)`. -/
  | get (method : String) (v : Values)
  /-- A logrus entry at level Error, with the error attached by `WithError`, if any. -/
  | logError (msg : String) (err : Option String)
  /-- The call `time.Sleep(d)`, `d` in nanoseconds. -/
  | sleep (ns : Nat)
  /-- The assignment `offset = n`. -/
  | assignOffset (n : Int)
  /-- The call `v.Set(key, value)`. -/
  | setValue (key value : String)
  /-- The assignment `clean = b`. -/
  | assignClean (b : Bool)
  /-- The channel send `u.updates <- &temp`. -/
  | send (u : RawUpdate)
  deriving DecidableEq, Repr

/-- Go `time.Second`, in nanoseconds. -/
def Second : Nat := 1000000000

/-- The local variables of `startPolling`. -/
structure PollState where
  v : Values
  offset : Int
  clean : Bool
  deriving DecidableEq, Repr

/-- The effect of one statement on the local variables. -/
def Effect.apply (st : PollState) : Effect → PollState
  | Effect.assignOffset n => { st with offset := n }
  | Effect.setValue key value => { st with v := Values.Set st.v key value }
  | Effect.assignClean b => { st with clean := b }
  | _ => st

/-- The local variables after the statements `es`, run in order from `st`. -/
def exec (st : PollState) (es : List Effect) : PollState := es.foldl Effect.apply st

/-- The envelopes sent on the update channel by `es`, in order. -/
def sends : List Effect → List RawUpdate
  | [] => []
  | Effect.send u :: es => u :: sends es
  | _ :: es => sends es

/-- The Error-level log entries of `es`, in order. -/
def logs : List Effect → List (String × Option String)
  | [] => []
  | Effect.logError msg err :: es => (msg, err) :: logs es
  | _ :: es => logs es

/-- The durations slept by `es`, in order. -/
def sleeps : List Effect → List Nat
  | [] => []
  | Effect.sleep ns :: es => ns :: sleeps es
  | _ :: es => sleeps es

/-- The parameters of the `getUpdates` calls of `es`, in order. -/
def fetches : List Effect → List Values
  | [] => []
  | Effect.get method v :: es => if method = "getUpdates" then v :: fetches es else fetches es
  | _ :: es => fetches es

/-! ## `startPolling` -/

/-- The local variables of `startPolling(clean)` on entry of the loop (lines 61-64). -/
def initState (clean : Bool) : PollState :=
  { v := Values.Add (Values.Add [] "offset" (Itoa 0)) "timeout" (Itoa 0)
    offset := 0
    clean := clean }

/-- The body of the `for` loop of `startPolling` after the call of `ext.Get` returned `r`
(lines 67-96). Each branch ends the iteration; none leaves the loop. -/
def loopBody (env : Env) (st : PollState) (r : Outcome) : List Effect :=
  match r with
  | Except.error err =>
    [Effect.logError "unable to getUpdates" (some err)]
  | Except.ok r =>
    if !r.Ok then
      [Effect.logError ("getUpdates error: " ++ r.Description) none,
       Effect.logError "Sleeping for 1 second..." none,
       Effect.sleep Second]
    else
      match r.Result with
      | none => []
      | some result =>
        let rawUpdates := (env.unmarshalRawMessages result).1
        if rawUpdates.length > 0 then
          let offset := intAdd (env.updateId (rawUpdates.getD (rawUpdates.length - 1) [])) 1
          [Effect.assignOffset offset, Effect.setValue "offset" (Itoa offset)] ++
            (if st.clean then [] else rawUpdates.map Effect.send)
        else if rawUpdates.length = 0 then
          Effect.assignClean false :: rawUpdates.map Effect.send
        else
          rawUpdates.map Effect.send

/-- One iteration of the loop from the local variables `st`: the fetch with the current `v`,
then the body on what the fetch returned. -/
def iteration (env : Env) (st : PollState) (r : Outcome) : List Effect :=
  Effect.get "getUpdates" st.v :: loopBody env st r

/-- The loop of `startPolling`, run from `st` for as many iterations as fetch outcomes are
supplied: the effects performed and the local variables reached. -/
def pollLoop (env : Env) (st : PollState) : List Outcome → List Effect × PollState
  | [] => ([], st)
  | r :: rs =>
    let es := iteration env st r
    let rest := pollLoop env (exec st es) rs
    (es ++ rest.1, rest.2)

/-- The function `startPolling(clean)`, its fetches answered by `rs` in turn. -/
def startPolling (env : Env) (clean : Bool) (rs : List Outcome) : List Effect × PollState :=
  pollLoop env (initState clean) rs

/-! ## `NewUpdater` and `RemoveWebhook` -/

/-- The fields of `ext.User` read by `NewUpdater`. -/
structure User where
  Id : Int
  FirstName : String
  Username : String
  deriving DecidableEq, Repr

/-- The fields of `ext.Bot` set by `NewUpdater` (the logger apart). -/
structure Bot where
  Token : String
  Id : Int
  FirstName : String
  UserName : String
  deriving DecidableEq, Repr

/-- A Go channel of raw updates: its capacity, fixed by `make`, and the envelopes it buffers,
oldest first. -/
structure Chan where
  cap : Nat
  buf : List RawUpdate
  deriving DecidableEq, Repr

/-- Go `make(chan *RawUpdate, cap)`; `make(chan *RawUpdate)` is the case `cap = 0`. -/
def makeChan (cap : Nat) : Chan := { cap := cap, buf := [] }

/-- The `Updater`: its bot and its channel `updates`; the `Dispatcher` is the reader of that
channel and carries no data of its own here. -/
structure Updater where
  Bot : Bot
  updates : Chan
  deriving DecidableEq, Repr

/-- The method `RemoveWebhook` (lines 144-153), `r` being what `ext.Get` returns: the pair
`(bool, error)` returned, and the effects. -/
def RemoveWebhook (env : Env) (r : Outcome) : (Bool × Option String) × List Effect :=
  let es := [Effect.get "deleteWebhook" []]
  match r with
  | Except.error err => ((false, some (Wrap err "failed to remove webhook")), es)
  | Except.ok r => (((env.unmarshalBool (r.Result.getD [])).1, none), es)

/-- The function `NewUpdater` (lines 23-46), `me` being what `GetMe` returns and `r` what the
`ext.Get` of `RemoveWebhook` returns if it is called: the pair `(*Updater, error)` returned, and
the effects. -/
def NewUpdater (env : Env) (token : String) (me : Except String User) (r : Outcome) :
    (Option Updater × Option String) × List Effect :=
  match me with
  | Except.error err =>
    ((none, some (Wrap err "unable to create new updater")), [Effect.getMe token])
  | Except.ok user =>
    let u : Updater :=
      { Bot := { Token := token, Id := user.Id, FirstName := user.FirstName,
                 UserName := user.Username }
        updates := makeChan 0 }
    let removed := RemoveWebhook env r
    let es := Effect.getMe token :: removed.2
    match removed.1 with
    | (_, some err) => ((none, some err), es)
    | (ok, none) =>
      if !ok then ((none, some "failed to remove webhook"), es)
      else ((some u, none), es)

/-! ## `StartWebhook` -/

/-- The `Webhook` configuration (lines 108-116). -/
structure Webhook where
  Serve : String
  ServePath : String
  ServePort : Int
  URL : String
  MaxConnections : Int
  AllowedUpdates : Option (List String)
  deriving DecidableEq, Repr

/-- The body of an HTTP request as the handler reads it: the bytes its reader yields until it
ends, and the error it ends with, if not the end of the input. -/
structure Body where
  data : List UInt8
  err : Option String
  deriving DecidableEq, Repr

/-- Go `ioutil.ReadAll`: the bytes read until the error or the end of input, and the error. -/
def ReadAll (body : Body) : List UInt8 × Option String := (body.data, body.err)

/-- The handler function registered by `StartWebhook` (lines 130-134) on a request with
body `body`. -/
def webhookHandler (body : Body) : List Effect :=
  let bytes := (ReadAll body).1
  let temp : RawUpdate := bytes
  [Effect.send temp]

/-- The registration done by `StartWebhook` (line 130): the pattern and the handler passed to
`http.HandleFunc`. -/
def StartWebhook (webhook : Webhook) : String × (Body → List Effect) :=
  ("/" ++ webhook.ServePath, webhookHandler)

/-- The method `GetListenUrl` (lines 118-126). The receiver is a copy of the caller's `Webhook`:
the assignments change the copy only. -/
def GetListenUrl (w : Webhook) : String :=
  let w := if w.Serve = "" then { w with Serve := "0.0.0.0" } else w
  let w := if w.ServePort = 0 then { w with ServePort := 443 } else w
  w.Serve ++ ":" ++ Itoa w.ServePort

/-- The address handed to `http.ListenAndServe` by `StartWebhook` (line 137). -/
def StartWebhook_listen (webhook : Webhook) : String := GetListenUrl webhook

/-- The call `json.Marshal(allowedUpdates)` of `SetWebhook`, read back by `string(allowed)`, with
what `encoding/json` guarantees of it. The argument is `none` for a nil slice. -/
structure StringsMarshal where
  /-- The encoding returned, as a string, and the error returned. -/
  marshal : Option (List String) → String × Option String
  /-- A slice of strings has no value that `json.Marshal` refuses. -/
  marshal_ok : ∀ l, (marshal l).2 = none
  /-- The empty slice that is not nil is encoded as the empty array. -/
  marshal_empty : (marshal (some [])).1 = "[]"

/-- The method `SetWebhook` (lines 155-179), `r` being what `ext.Get` returns if it is called:
the pair `(bool, error)` returned, and the effects. -/
def SetWebhook (env : Env) (m : StringsMarshal) (path : String) (webhook : Webhook)
    (r : Outcome) : (Bool × Option String) × List Effect :=
  let allowedUpdates := webhook.AllowedUpdates
  let allowedUpdates := if allowedUpdates = none then some [] else allowedUpdates
  match m.marshal allowedUpdates with
  | (_, some err) => ((false, some (Wrap err "cannot marshal allowedUpdates")), [])
  | (allowed, none) =>
    let v : Values := []
    let v := Values.Add v "url" (webhook.URL ++ "/" ++ path)
    let v := Values.Add v "max_connections" (Itoa webhook.MaxConnections)
    let v := Values.Add v "allowed_updates" allowed
    let es := [Effect.get "setWebhook" v]
    match r with
    | Except.error err => ((false, some (Wrap err "failed to set webhook")), es)
    | Except.ok r => (((env.unmarshalBool (r.Result.getD [])).1, none), es)

/-! ## The update channel -/

/-- A send that completes by itself, no receiver taking part: it needs free room in the buffer. -/
def Chan.sendBuffered (c : Chan) (u : RawUpdate) : Option Chan :=
  if c.buf.length < c.cap then some { c with buf := c.buf ++ [u] } else none

/-- The acquisition side, with the envelopes it has still to send, in order; the channel; and
the envelopes the Dispatcher has received, in order. -/
structure Conduit where
  pending : List RawUpdate
  chan : Chan
  received : List RawUpdate
  deriving DecidableEq, Repr

/-- The steps of a channel with one sender and one receiver. -/
inductive ChanStep where
  /-- The sender puts its next envelope into the buffer and goes on. -/
  | enqueue
  /-- The receiver takes the oldest envelope of the buffer. -/
  | dequeue
  /-- The sender, waiting at an empty buffer, meets the receiver: the envelope passes from
  the one to the other. -/
  | handoff
  deriving DecidableEq, Repr

/-- One step of the conduit, `none` when the step is not possible in the state. -/
def Conduit.step (s : Conduit) : ChanStep → Option Conduit
  | ChanStep.enqueue =>
    match s.pending with
    | [] => none
    | u :: rest =>
      match s.chan.sendBuffered u with
      | none => none
      | some c => some { pending := rest, chan := c, received := s.received }
  | ChanStep.dequeue =>
    match s.chan.buf with
    | [] => none
    | u :: rest =>
      some { pending := s.pending, chan := { s.chan with buf := rest },
             received := s.received ++ [u] }
  | ChanStep.handoff =>
    match s.pending, s.chan.buf with
    | u :: rest, [] => some { pending := rest, chan := s.chan, received := s.received ++ [u] }
    | _, _ => none

/-- A run of the conduit, `none` when one of the steps is not possible. -/
def Conduit.run (s : Conduit) : List ChanStep → Option Conduit
  | [] => some s
  | a :: rest =>
    match s.step a with
    | none => none
    | some t => t.run rest

/-- The conduit of the updater `u` when the acquisition side is about to send `us`. -/
def Updater.conduit (u : Updater) (us : List RawUpdate) : Conduit :=
  { pending := us, chan := u.updates, received := [] }

/-! ## `ext/sendables.go`: `sendFile` -/

/-- The struct `file` (lines 105-111); `Reader` is `none` for a nil `io.Reader`, and a reader is
known by a number. -/
structure file where
  Name : String
  FileId : String
  Path : String
  Reader : Option Nat
  URL : String
  deriving DecidableEq, Repr

/-- The `io.Reader` handed to `Post`. -/
inductive FileSource where
  /-- The file returned by `os.Open(path)`. -/
  | opened (path : String)
  /-- The reader `msg.Reader`. -/
  | reader (id : Nat)
  deriving DecidableEq, Repr

/-- The error values `sendFile` returns, by where they come from. -/
inductive SendError where
  /-- The error made by `errors.New(msg)` in `sendFile`. -/
  | new (msg : String)
  /-- An error returned by `os.Open`. -/
  | os (msg : String)
  /-- An error returned by `Get` or `Post`. -/
  | request (msg : String)
  deriving DecidableEq, Repr

/-- What `sendFile` does. -/
inductive FileEffect where
  /-- The call `params.Add(key, value)`, on the map of the caller. -/
  | paramsAdd (key value : String)
  /-- The call `Get(b, endpoint, params)`. -/
  | get (endpoint : String) (params : Values)
  /-- The call `os.Open(path)`. -/
  | osOpen (path : String)
  /-- The call `Post(b, fileType, endpoint, params, src, name)`. -/
  | post (fileType endpoint : String) (params : Values) (src : FileSource) (name : String)
  /-- The deferred `file.Close()` of the file opened at `path`. -/
  | close (path : String)
  deriving DecidableEq, Repr

/-- The pair `(*Response, error)` returned by `Get` and `Post`. -/
def requestResult (r : Outcome) : Option Response × Option SendError :=
  match r with
  | Except.ok resp => (some resp, none)
  | Except.error err => (none, some (SendError.request err))

/-- The requests (`Get` or `Post`) among the effects `es`. -/
def requests : List FileEffect → List FileEffect
  | [] => []
  | FileEffect.get endpoint params :: es => FileEffect.get endpoint params :: requests es
  | FileEffect.post fileType endpoint params src name :: es =>
    FileEffect.post fileType endpoint params src name :: requests es
  | _ :: es => requests es

/-- The method `sendFile` (lines 938-955), `opened` being what `os.Open` returns and `r` what
`Get` or `Post` returns, if they are called: the pair `(*Response, error)` returned, and the
effects. -/
def sendFile (msg : file) (fileType endpoint : String) (params : Values)
    (opened : Except String Unit) (r : Outcome) :
    (Option Response × Option SendError) × List FileEffect :=
  if msg.FileId ≠ "" then
    (requestResult r,
      [FileEffect.paramsAdd fileType msg.FileId,
       FileEffect.get endpoint (Values.Add params fileType msg.FileId)])
  else if msg.Path ≠ "" then
    match opened with
    | Except.error err => ((none, some (SendError.os err)), [FileEffect.osOpen msg.Path])
    | Except.ok _ =>
      (requestResult r,
        [FileEffect.osOpen msg.Path,
         FileEffect.post fileType endpoint params (FileSource.opened msg.Path) msg.Name,
         FileEffect.close msg.Path])
  else
    match msg.Reader with
    | some reader =>
      (requestResult r,
        [FileEffect.post fileType endpoint params (FileSource.reader reader) msg.Name])
    | none =>
      ((none, some (SendError.new "the message had no files that could be sent")), [])

/-! ## Sample inputs -/

/-- The bytes of an ASCII string. -/
def bytes (s : String) : List UInt8 := s.toList.map (fun c => c.toNat.toUInt8)

/-- A sample update with `update_id` `n`. -/
def sampleUpdate (n : Nat) : RawUpdate := bytes ("\x7b\"update_id\":" ++ Nat.repr n ++ "\x7d")

/-- The JSON array of the sample updates with the ids `ids`. -/
def sampleBatch (ids : List Nat) : RawMessage :=
  bytes "[" ++ ((ids.map sampleUpdate).intersperse (bytes ",")).flatten ++ bytes "]"

/-- The id lists of the batches the sample decoder knows. -/
def sampleBatches : List (List Nat) := [[], [5, 6, 7], [1], [8, 9]]

/-- A decoder agreeing with `json.Unmarshal` into `[]json.RawMessage` on the sample batches; any
other input is refused, the slice staying nil. -/
def sampleUnmarshalRawMessages (data : RawMessage) : List RawMessage × Option String :=
  match sampleBatches.find? (fun ids => sampleBatch ids = data) with
  | some ids => (ids.map sampleUpdate, none)
  | none => ([], some "json: cannot unmarshal into Go value of type []json.RawMessage")

/-- A decoder agreeing with `json.Unmarshal` into `bool` on `true` and `false`; any other input
is refused, the variable staying `false`. -/
def sampleUnmarshalBool (data : RawMessage) : Bool × Option String :=
  if data = bytes "true" then (true, none)
  else if data = bytes "false" then (false, none)
  else (false, some "json: cannot unmarshal into Go value of type bool")

/-- The `update_id` of the sample updates with an id below 16; 0, the zero value, elsewhere. -/
def sampleUpdateId (u : RawUpdate) : Int :=
  match (List.range 16).find? (fun n => sampleUpdate n = u) with
  | some n => (n : Int)
  | none => 0

/-- The sample collaborators. -/
def sampleEnv : Env :=
  { unmarshalRawMessages := sampleUnmarshalRawMessages
    unmarshalBool := sampleUnmarshalBool
    updateId := sampleUpdateId
    updateId_range := by
      intro u
      unfold sampleUpdateId
      cases h : (List.range 16).find? (fun n => sampleUpdate n = u) with
      | none => simp [minInt, maxInt]
      | some n =>
        have hn : n < 16 := List.mem_range.mp (List.mem_of_find?_eq_some h)
        simp only [minInt, maxInt]
        omega }

/-- A successful response carrying the sample batch with the ids `ids`. -/
def okBatch (ids : List Nat) : Outcome :=
  Except.ok { Ok := true, Result := some (sampleBatch ids), Description := "" }

/-- A response with `ok = false`, as the remote API answers a call with a bad token. -/
def notOkResponse : Response :=
  { Ok := false, Result := none, Description := "Unauthorized" }

/-- A successful response whose result is a JSON object, not an array of updates. -/
def malformedResponse : Response :=
  { Ok := true, Result := some (bytes "\x7b\x7d"), Description := "" }

/-- An encoder agreeing with `json.Marshal` on nil and on slices of strings that need no
escaping. -/
def sampleMarshal : StringsMarshal :=
  { marshal := fun l =>
      match l with
      | none => ("null", none)
      | some xs => ("[" ++ ",".intercalate (xs.map (fun x => "\"" ++ x ++ "\"")) ++ "]", none)
    marshal_ok := by
      intro l
      cases l <;> rfl
    marshal_empty := by decide }

/-- A webhook registration leaving the listen address and the filter unset. -/
def sampleWebhook : Webhook :=
  { Serve := "", ServePath := "hook", ServePort := 0, URL := "https://bot.example.org",
    MaxConnections := 40, AllowedUpdates := none }

/-- The identity the sample `GetMe` returns. -/
def sampleUser : User := { Id := 42, FirstName := "Sample", Username := "sample_bot" }

/-- A successful response whose result is the JSON `true`. -/
def okTrue : Outcome := Except.ok { Ok := true, Result := some (bytes "true"), Description := "" }

/-- A `file` of which only the path is set. -/
def pathOnlyFile : file :=
  { Name := "photo.png", FileId := "", Path := "/missing/photo.png", Reader := none, URL := "" }

/-- A `file` of which only the URL is set. -/
def urlOnlyFile : file :=
  { Name := "", FileId := "", Path := "", Reader := none, URL := "https://example.org/a.png" }

/-! ## Request parameters and clean mode -/

/-- The request parameters that go with the cursor `c`: `offset` is its decimal rendering,
`timeout` is `"0"`. -/
def pollParams (c : Int) : Values := [("offset", [Itoa c]), ("timeout", ["0"])]

/-- The outcome is a successful response whose result decodes, without error, to an empty
batch. -/
def decodesToEmptyBatch (env : Env) (r : Outcome) : Bool :=
  match r with
  | Except.error _ => false
  | Except.ok resp =>
    resp.Ok &&
      (match resp.Result with
       | none => false
       | some result => decide (env.unmarshalRawMessages result = ([], none)))

/-- The outcome is a successful response whose non-nil result leaves `rawUpdates` empty, be it
decoded to an empty batch or not decoded at all. -/
def leavesEmptyBatch (env : Env) (r : Outcome) : Bool :=
  match r with
  | Except.error _ => false
  | Except.ok resp =>
    resp.Ok &&
      (match resp.Result with
       | none => false
       | some result => decide ((env.unmarshalRawMessages result).1 = []))

/-! ## Orderings of cursor moves and channel sends -/

/-- In `es`, every assignment of the cursor, and every setting of the offset parameter, comes
after the sends of all the envelopes of `batch`. -/
def advancesAfterSends (batch : List RawUpdate) (es : List Effect) : Prop :=
  ∀ k, k < es.length →
    ((∃ n, es[k]? = some (Effect.assignOffset n)) ∨
      (∃ x, es[k]? = some (Effect.setValue "offset" x))) →
    ∀ u ∈ batch, u ∈ sends (es.take k)

/-- Running `es` from `st`, the cursor is at no point beyond the `update_id` of an envelope of
`batch` that has not been sent by then. -/
def neverPastUnsent (env : Env) (st : PollState) (batch : List RawUpdate) (es : List Effect) :
    Prop :=
  ∀ k, k ≤ es.length → ∀ u ∈ batch,
    env.updateId u < (exec st (es.take k)).offset → u ∈ sends (es.take k)

/-! ## Auxiliary facts -/

theorem wrapInt_of_range (x : Int) (hlo : minInt ≤ x) (hhi : x ≤ maxInt) : wrapInt x = x := by
  unfold wrapInt
  unfold minInt at hlo
  unfold maxInt at hhi
  omega

theorem intAdd_one (x : Int) (hlo : minInt ≤ x) (hhi : x < maxInt) : intAdd x 1 = x + 1 := by
  unfold intAdd
  apply wrapInt_of_range
  · unfold minInt at *
    omega
  · unfold maxInt at *
    omega

theorem exec_append (st : PollState) (es fs : List Effect) :
    exec st (es ++ fs) = exec (exec st es) fs := by
  simp [exec, List.foldl_append]

theorem exec_map_send (st : PollState) (us : List RawUpdate) :
    exec st (us.map Effect.send) = st := by
  induction us with
  | nil => rfl
  | cons u us ih => simpa [exec, Effect.apply] using ih

theorem sends_append (es fs : List Effect) : sends (es ++ fs) = sends es ++ sends fs := by
  induction es with
  | nil => rfl
  | cons e es ih => cases e <;> simp [sends, ih]

theorem sends_map_send (us : List RawUpdate) : sends (us.map Effect.send) = us := by
  induction us with
  | nil => rfl
  | cons u us ih => simp [sends, ih]

theorem fetches_append (es fs : List Effect) : fetches (es ++ fs) = fetches es ++ fetches fs := by
  induction es with
  | nil => rfl
  | cons e es ih =>
    cases e <;> simp [fetches, ih]
    split <;> simp

theorem fetches_map_send (us : List RawUpdate) : fetches (us.map Effect.send) = [] := by
  induction us with
  | nil => rfl
  | cons u us ih => simp [fetches, ih]

theorem getD_length_sub_one (us : List RawUpdate) (hne : us ≠ []) :
    us.getD (us.length - 1) [] = us.getLast hne := by
  rw [List.getLast_eq_getElem, List.getD_eq_getElem?_getD, List.getElem?_eq_getElem]
  · rfl

/-- The body of the loop on a successful response whose result leaves a non-empty batch. -/
theorem loopBody_batch (env : Env) (st : PollState) (resp : Response) (result : RawMessage)
    (batch : List RawUpdate) (hok : resp.Ok = true) (hres : resp.Result = some result)
    (hdec : (env.unmarshalRawMessages result).1 = batch) (hne : batch ≠ []) :
    loopBody env st (Except.ok resp) =
      [Effect.assignOffset (intAdd (env.updateId (batch.getLast hne)) 1),
       Effect.setValue "offset" (Itoa (intAdd (env.updateId (batch.getLast hne)) 1))] ++
        (if st.clean then [] else batch.map Effect.send) := by
  have hlen : batch.length > 0 := List.length_pos.mpr hne
  simp only [loopBody, hok, hres, hdec, Bool.not_true, Bool.false_eq_true, if_false, hlen,
    if_true, getD_length_sub_one batch hne]

/-- The body of the loop on a successful response whose result leaves an empty batch. -/
theorem loopBody_empty (env : Env) (st : PollState) (resp : Response) (result : RawMessage)
    (hok : resp.Ok = true) (hres : resp.Result = some result)
    (hdec : (env.unmarshalRawMessages result).1 = []) :
    loopBody env st (Except.ok resp) = [Effect.assignClean false] := by
  simp [loopBody, hok, hres, hdec]

/-- The body of the loop on a response with `ok = false`. -/
theorem loopBody_not_ok (env : Env) (st : PollState) (resp : Response) (hok : resp.Ok = false) :
    loopBody env st (Except.ok resp) =
      [Effect.logError ("getUpdates error: " ++ resp.Description) none,
       Effect.logError "Sleeping for 1 second..." none,
       Effect.sleep Second] := by
  simp [loopBody, hok]

theorem pollLoop_cons (env : Env) (st : PollState) (r : Outcome) (rs : List Outcome) :
    pollLoop env st (r :: rs) =
      (iteration env st r ++ (pollLoop env (exec st (iteration env st r)) rs).1,
       (pollLoop env (exec st (iteration env st r)) rs).2) := rfl

theorem exec_iteration (env : Env) (st : PollState) (r : Outcome) :
    exec st (iteration env st r) = exec st (loopBody env st r) := rfl

theorem sends_iteration (env : Env) (st : PollState) (r : Outcome) :
    sends (iteration env st r) = sends (loopBody env st r) := rfl

theorem loopBody_nil_result (env : Env) (st : PollState) (resp : Response)
    (hok : resp.Ok = true) (hres : resp.Result = none) :
    loopBody env st (Except.ok resp) = [] := by
  simp [loopBody, hok, hres]

theorem fetches_loopBody (env : Env) (st : PollState) (r : Outcome) :
    fetches (loopBody env st r) = [] := by
  cases r with
  | error err => rfl
  | ok resp =>
    cases hok : resp.Ok with
    | false => rw [loopBody_not_ok env st resp hok]; rfl
    | true =>
      cases hres : resp.Result with
      | none => rw [loopBody_nil_result env st resp hok hres]; rfl
      | some result =>
        by_cases hne : (env.unmarshalRawMessages result).1 = []
        · rw [loopBody_empty env st resp result hok hres hne]; rfl
        · rw [loopBody_batch env st resp result _ hok hres rfl hne]
          cases st.clean <;> simp [fetches, fetches_map_send]

/-- The loop never ends by itself: it fetches once per outcome it is given. -/
theorem fetches_pollLoop_length (env : Env) (rs : List Outcome) (st : PollState) :
    (fetches (pollLoop env st rs).1).length = rs.length := by
  induction rs generalizing st with
  | nil => rfl
  | cons r rs ih =>
    rw [pollLoop_cons, fetches_append]
    simp [iteration, fetches, fetches_loopBody, ih]

/-- The local variables after an iteration on a non-empty batch. -/
theorem exec_iteration_batch (env : Env) (st : PollState) (resp : Response) (result : RawMessage)
    (batch : List RawUpdate) (hok : resp.Ok = true) (hres : resp.Result = some result)
    (hdec : (env.unmarshalRawMessages result).1 = batch) (hne : batch ≠ []) :
    exec st (iteration env st (Except.ok resp)) =
      { v := Values.Set st.v "offset" (Itoa (intAdd (env.updateId (batch.getLast hne)) 1))
        offset := intAdd (env.updateId (batch.getLast hne)) 1
        clean := st.clean } := by
  rw [exec_iteration, loopBody_batch env st resp result batch hok hres hdec hne, exec_append]
  obtain ⟨v, offset, clean⟩ := st
  cases clean
  · rw [if_neg (by simp), exec_map_send]
    rfl
  · rfl

/-- The envelopes sent by an iteration on a non-empty batch. -/
theorem sends_iteration_batch (env : Env) (st : PollState) (resp : Response) (result : RawMessage)
    (batch : List RawUpdate) (hok : resp.Ok = true) (hres : resp.Result = some result)
    (hdec : (env.unmarshalRawMessages result).1 = batch) (hne : batch ≠ []) :
    sends (iteration env st (Except.ok resp)) = if st.clean then [] else batch := by
  rw [sends_iteration, loopBody_batch env st resp result batch hok hres hdec hne, sends_append]
  cases st.clean
  · simp [sends, sends_map_send]
  · simp [sends]

/-- The local variables after an iteration on an empty batch. -/
theorem exec_iteration_empty (env : Env) (st : PollState) (resp : Response) (result : RawMessage)
    (hok : resp.Ok = true) (hres : resp.Result = some result)
    (hdec : (env.unmarshalRawMessages result).1 = []) :
    exec st (iteration env st (Except.ok resp)) = { st with clean := false } := by
  rw [exec_iteration, loopBody_empty env st resp result hok hres hdec]
  rfl

/-- An iteration on an empty batch sends nothing. -/
theorem sends_iteration_empty (env : Env) (st : PollState) (resp : Response) (result : RawMessage)
    (hok : resp.Ok = true) (hres : resp.Result = some result)
    (hdec : (env.unmarshalRawMessages result).1 = []) :
    sends (iteration env st (Except.ok resp)) = [] := by
  rw [sends_iteration, loopBody_empty env st resp result hok hres hdec]
  rfl

/-! ## The polling loop: batches -/

/-- C1: with clean-start mode off, an iteration of `startPolling` on a successful response whose
result decodes to a non-empty batch leaves the cursor at the `update_id` of the last envelope
plus one (Go `int` addition, the mathematical sum below the largest `int`) and sends exactly the
envelopes of the batch, each once, in batch order. -/
theorem startPolling_batch_delivered (env : Env) (st : PollState) (resp : Response)
    (result : RawMessage) (batch : List RawUpdate)
    (hclean : st.clean = false) (hok : resp.Ok = true) (hres : resp.Result = some result)
    (hdec : env.unmarshalRawMessages result = (batch, none)) (hne : batch ≠ []) :
    (exec st (iteration env st (Except.ok resp))).offset =
        intAdd (env.updateId (batch.getLast hne)) 1 ∧
      (env.updateId (batch.getLast hne) < maxInt →
        (exec st (iteration env st (Except.ok resp))).offset =
          env.updateId (batch.getLast hne) + 1) ∧
      sends (iteration env st (Except.ok resp)) = batch := by
  have hb : (env.unmarshalRawMessages result).1 = batch := by rw [hdec]
  rw [exec_iteration_batch env st resp result batch hok hres hb hne,
    sends_iteration_batch env st resp result batch hok hres hb hne, hclean]
  refine ⟨rfl, fun hlt => ?_, by simp⟩
  exact intAdd_one _ (env.updateId_range _).1 hlt

/-- C1, the scenario of the specification: the batch with the ids 5, 6, 7 at offset 0 gives
offset 8, and the channel receives 5, 6, 7 in order. -/
theorem startPolling_batch_delivered_witness :
    (initState false).offset = 0 ∧
      (exec (initState false) (iteration sampleEnv (initState false) (okBatch [5, 6, 7]))).offset
        = 8 ∧
      sends (iteration sampleEnv (initState false) (okBatch [5, 6, 7])) =
        [sampleUpdate 5, sampleUpdate 6, sampleUpdate 7] := by
  have h := startPolling_batch_delivered sampleEnv (initState false)
    { Ok := true, Result := some (sampleBatch [5, 6, 7]), Description := "" }
    (sampleBatch [5, 6, 7]) [sampleUpdate 5, sampleUpdate 6, sampleUpdate 7]
    rfl rfl rfl (by decide) (by decide)
  exact ⟨rfl, (h.2.1 (by decide)).trans (by decide), h.2.2⟩

/-- C2 fails: started with `clean = true`, the loop is still in clean mode after a first
non-empty batch, and a second non-empty batch is not sent either. -/
theorem cleanPolling_second_batch_dropped :
    (startPolling sampleEnv true [okBatch [5, 6, 7]]).2.clean = true ∧
      sends (startPolling sampleEnv true [okBatch [5, 6, 7], okBatch [8, 9]]).1 = [] ∧
      (startPolling sampleEnv true [okBatch [5, 6, 7], okBatch [8, 9]]).2.offset = 10 := by
  decide

/-- C2, amended: started with `clean = true`, a first non-empty batch `B1` advances the cursor
past its last envelope and sends nothing, and clean mode stays on; a second non-empty batch `B2`
right after it again only advances the cursor, past its own last envelope, and sends nothing.
When a successful response with an empty batch comes between the two, clean mode is off and
`B2` is sent whole, in order. -/
theorem cleanPolling_two_batches (env : Env) (r1 r2 : Response) (res1 res2 : RawMessage)
    (B1 B2 : List RawUpdate)
    (hok1 : r1.Ok = true) (hres1 : r1.Result = some res1)
    (hdec1 : env.unmarshalRawMessages res1 = (B1, none)) (hne1 : B1 ≠ [])
    (hok2 : r2.Ok = true) (hres2 : r2.Result = some res2)
    (hdec2 : env.unmarshalRawMessages res2 = (B2, none)) (hne2 : B2 ≠ []) :
    ((startPolling env true [Except.ok r1]).2.offset = intAdd (env.updateId (B1.getLast hne1)) 1 ∧
      sends (startPolling env true [Except.ok r1]).1 = [] ∧
      (startPolling env true [Except.ok r1]).2.clean = true) ∧
    ((startPolling env true [Except.ok r1, Except.ok r2]).2.offset =
        intAdd (env.updateId (B2.getLast hne2)) 1 ∧
      sends (startPolling env true [Except.ok r1, Except.ok r2]).1 = [] ∧
      (startPolling env true [Except.ok r1, Except.ok r2]).2.clean = true) ∧
    (∀ (r0 : Response) (res0 : RawMessage), r0.Ok = true → r0.Result = some res0 →
      env.unmarshalRawMessages res0 = ([], none) →
      (startPolling env true [Except.ok r1, Except.ok r0, Except.ok r2]).2.offset =
          intAdd (env.updateId (B2.getLast hne2)) 1 ∧
        sends (startPolling env true [Except.ok r1, Except.ok r0, Except.ok r2]).1 = B2 ∧
        (startPolling env true [Except.ok r1, Except.ok r0, Except.ok r2]).2.clean = false) := by
  have hb1 : (env.unmarshalRawMessages res1).1 = B1 := by rw [hdec1]
  have hb2 : (env.unmarshalRawMessages res2).1 = B2 := by rw [hdec2]
  refine ⟨?_, ?_, ?_⟩
  · simp only [startPolling, pollLoop_cons, pollLoop, List.append_nil,
      exec_iteration_batch env _ r1 res1 B1 hok1 hres1 hb1 hne1,
      sends_iteration_batch env _ r1 res1 B1 hok1 hres1 hb1 hne1]
    simp [initState]
  · simp only [startPolling, pollLoop_cons, pollLoop, List.append_nil, sends_append,
      exec_iteration_batch env _ r1 res1 B1 hok1 hres1 hb1 hne1,
      sends_iteration_batch env _ r1 res1 B1 hok1 hres1 hb1 hne1,
      exec_iteration_batch env _ r2 res2 B2 hok2 hres2 hb2 hne2,
      sends_iteration_batch env _ r2 res2 B2 hok2 hres2 hb2 hne2]
    simp [initState]
  · intro r0 res0 hok0 hres0 hdec0
    have hb0 : (env.unmarshalRawMessages res0).1 = [] := by rw [hdec0]
    simp only [startPolling, pollLoop_cons, pollLoop, List.append_nil, sends_append,
      exec_iteration_batch env _ r1 res1 B1 hok1 hres1 hb1 hne1,
      sends_iteration_batch env _ r1 res1 B1 hok1 hres1 hb1 hne1,
      exec_iteration_empty env _ r0 res0 hok0 hres0 hb0,
      sends_iteration_empty env _ r0 res0 hok0 hres0 hb0,
      exec_iteration_batch env _ r2 res2 B2 hok2 hres2 hb2 hne2,
      sends_iteration_batch env _ r2 res2 B2 hok2 hres2 hb2 hne2]
    simp [initState]

/-- C2, amended, on the sample batches 5, 6, 7 and 8, 9: both are withheld; with an empty batch
between them the second is sent. -/
theorem cleanPolling_two_batches_witness :
    sends (startPolling sampleEnv true [okBatch [5, 6, 7], okBatch [8, 9]]).1 = [] ∧
      sends (startPolling sampleEnv true [okBatch [5, 6, 7], okBatch [], okBatch [8, 9]]).1 =
        [sampleUpdate 8, sampleUpdate 9] := by
  have h := cleanPolling_two_batches sampleEnv
    { Ok := true, Result := some (sampleBatch [5, 6, 7]), Description := "" }
    { Ok := true, Result := some (sampleBatch [8, 9]), Description := "" }
    (sampleBatch [5, 6, 7]) (sampleBatch [8, 9])
    [sampleUpdate 5, sampleUpdate 6, sampleUpdate 7] [sampleUpdate 8, sampleUpdate 9]
    rfl rfl (by decide) (by decide) rfl rfl (by decide) (by decide)
  exact ⟨h.2.1.2.1,
    (h.2.2 { Ok := true, Result := some (sampleBatch []), Description := "" } (sampleBatch [])
      rfl rfl (by decide)).2.1⟩

/-- C3: an iteration of `startPolling` on a successful response whose result decodes to an empty
batch leaves the cursor and the request parameters (the offset parameter among them) unchanged
and sends nothing on the update channel. -/
theorem startPolling_empty_batch (env : Env) (st : PollState) (resp : Response)
    (result : RawMessage) (hok : resp.Ok = true) (hres : resp.Result = some result)
    (hdec : env.unmarshalRawMessages result = ([], none)) :
    (exec st (iteration env st (Except.ok resp))).offset = st.offset ∧
      (exec st (iteration env st (Except.ok resp))).v = st.v ∧
      Values.Get (exec st (iteration env st (Except.ok resp))).v "offset" =
        Values.Get st.v "offset" ∧
      sends (iteration env st (Except.ok resp)) = [] := by
  have hb : (env.unmarshalRawMessages result).1 = [] := by rw [hdec]
  rw [exec_iteration_empty env st resp result hok hres hb,
    sends_iteration_empty env st resp result hok hres hb]
  exact ⟨rfl, rfl, rfl, rfl⟩

/-- C3 on the sample empty batch, after the batch 5, 6, 7 has moved the cursor to 8. -/
theorem startPolling_empty_batch_witness :
    (exec (startPolling sampleEnv false [okBatch [5, 6, 7]]).2
        (iteration sampleEnv (startPolling sampleEnv false [okBatch [5, 6, 7]]).2
          (okBatch []))).offset = 8 ∧
      sends (iteration sampleEnv (startPolling sampleEnv false [okBatch [5, 6, 7]]).2
        (okBatch [])) = [] := by
  have h := startPolling_empty_batch sampleEnv (startPolling sampleEnv false [okBatch [5, 6, 7]]).2
    { Ok := true, Result := some (sampleBatch []), Description := "" } (sampleBatch [])
    rfl rfl (by decide)
  exact ⟨h.1.trans (by decide), h.2.2.2⟩

/-! ## The polling loop: failures -/

/-- C4 fails: on a response with `ok = false` the iteration writes two Error-level log entries,
the description and the notice of the sleep, not one. -/
theorem startPolling_not_ok_two_entries :
    logs (iteration sampleEnv (initState false) (Except.ok notOkResponse)) =
        [("getUpdates error: Unauthorized", none), ("Sleeping for 1 second...", none)] ∧
      (logs (iteration sampleEnv (initState false) (Except.ok notOkResponse))).length ≠ 1 := by
  decide

/-- C4, amended: on a response with `ok = false` an iteration of `startPolling` fetches, writes
exactly two Error-level log entries (the description of the response, then the notice of the
sleep), sleeps once, for one second, as its last step, leaves the local variables (the cursor
among them) unchanged and sends nothing; the loop then fetches again, with the same
parameters. -/
theorem startPolling_not_ok (env : Env) (st : PollState) (resp : Response)
    (hok : resp.Ok = false) :
    iteration env st (Except.ok resp) =
        [Effect.get "getUpdates" st.v,
         Effect.logError ("getUpdates error: " ++ resp.Description) none,
         Effect.logError "Sleeping for 1 second..." none,
         Effect.sleep 1000000000] ∧
      logs (iteration env st (Except.ok resp)) =
        [("getUpdates error: " ++ resp.Description, none), ("Sleeping for 1 second...", none)] ∧
      sleeps (iteration env st (Except.ok resp)) = [1000000000] ∧
      exec st (iteration env st (Except.ok resp)) = st ∧
      sends (iteration env st (Except.ok resp)) = [] ∧
      ∀ next : Outcome,
        (pollLoop env st [Except.ok resp, next]).1 =
          iteration env st (Except.ok resp) ++ Effect.get "getUpdates" st.v ::
            loopBody env st next := by
  have hit : iteration env st (Except.ok resp) =
      [Effect.get "getUpdates" st.v,
       Effect.logError ("getUpdates error: " ++ resp.Description) none,
       Effect.logError "Sleeping for 1 second..." none,
       Effect.sleep 1000000000] := by
    rw [iteration, loopBody_not_ok env st resp hok]
    rfl
  have hex : exec st (iteration env st (Except.ok resp)) = st := by
    rw [hit]
    rfl
  refine ⟨hit, ?_, ?_, hex, ?_, ?_⟩
  · rw [hit]
    rfl
  · rw [hit]
    rfl
  · rw [hit]
    rfl
  · intro next
    simp only [pollLoop_cons, pollLoop, List.append_nil, hex]
    rfl

/-- C4, amended, on the sample response with `ok = false`. -/
theorem startPolling_not_ok_witness :
    notOkResponse.Ok = false ∧
      sleeps (iteration sampleEnv (initState false) (Except.ok notOkResponse)) = [1000000000] ∧
      exec (initState false) (iteration sampleEnv (initState false) (Except.ok notOkResponse)) =
        initState false :=
  ⟨rfl, (startPolling_not_ok sampleEnv (initState false) notOkResponse rfl).2.2.1,
    (startPolling_not_ok sampleEnv (initState false) notOkResponse rfl).2.2.2.1⟩

/-- C5: when the fetch returns a transport error, an iteration of `startPolling` logs the error,
does not sleep, leaves the local variables (cursor, clean flag, request parameters) unchanged and
sends nothing; the loop then fetches again, with the same parameters, and whatever outcomes
follow, it fetches once for each of them: the error does not end it. -/
theorem startPolling_transport_error (env : Env) (st : PollState) (err : String) :
    iteration env st (Except.error err) =
        [Effect.get "getUpdates" st.v, Effect.logError "unable to getUpdates" (some err)] ∧
      sleeps (iteration env st (Except.error err)) = [] ∧
      exec st (iteration env st (Except.error err)) = st ∧
      sends (iteration env st (Except.error err)) = [] ∧
      (∀ next : Outcome,
        (pollLoop env st [Except.error err, next]).1 =
          iteration env st (Except.error err) ++ Effect.get "getUpdates" st.v ::
            loopBody env st next) ∧
      ∀ rs : List Outcome,
        (fetches (pollLoop env st (Except.error err :: rs)).1).length = rs.length + 1 := by
  refine ⟨rfl, rfl, rfl, rfl, fun next => ?_, fun rs => ?_⟩
  · simp only [pollLoop_cons, pollLoop, List.append_nil]
    rfl
  · rw [fetches_pollLoop_length]
    rfl

/-! ## The webhook handler -/

/-- C6: on every request the handler registered by `StartWebhook` performs exactly one send on
the update channel, of an envelope equal to the bytes of the request body, and touches no
cursor or request parameter. -/
theorem webhook_forwards_body (webhook : Webhook) (body : Body) (st : PollState) :
    (StartWebhook webhook).1 = "/" ++ webhook.ServePath ∧
      (StartWebhook webhook).2 body = [Effect.send body.data] ∧
      sends ((StartWebhook webhook).2 body) = [body.data] ∧
      exec st ((StartWebhook webhook).2 body) = st :=
  ⟨rfl, rfl, rfl, rfl⟩

/-! ## `NewUpdater` -/

/-- C7: `NewUpdater` returns an updater and a nil error exactly when `GetMe` succeeds and the
`deleteWebhook` call returns without a transport error a result that decodes to `true`; in every
other case it returns a nil updater and a non-nil error. Whenever it returns an updater it has
issued, after `GetMe`, the `deleteWebhook` call. -/
theorem NewUpdater_result (env : Env) (token : String) (me : Except String User) (r : Outcome) :
    ((∃ u, (NewUpdater env token me r).1 = (some u, none)) ↔
        (∃ user, me = Except.ok user) ∧
          ∃ resp, r = Except.ok resp ∧ (env.unmarshalBool (resp.Result.getD [])).1 = true) ∧
      ((¬ ∃ u, (NewUpdater env token me r).1 = (some u, none)) →
        ∃ err, (NewUpdater env token me r).1 = (none, some err)) ∧
      (∀ u, (NewUpdater env token me r).1.1 = some u →
        (NewUpdater env token me r).2 =
          [Effect.getMe token, Effect.get "deleteWebhook" []]) := by
  cases me with
  | error e => simp [NewUpdater]
  | ok user =>
    cases r with
    | error e => simp [NewUpdater, RemoveWebhook]
    | ok resp =>
      cases hb : (env.unmarshalBool (resp.Result.getD [])).1 <;>
        simp [NewUpdater, RemoveWebhook, hb]

/-! ## The cursor -/

/-- C8 fails: the cursor is assigned from the last envelope without a comparison; after the
batch 5, 6, 7 has put it at 8, a batch whose last `update_id` is 1 puts it back at 2. -/
theorem cursor_rolled_back :
    (startPolling sampleEnv false [okBatch [5, 6, 7]]).2.offset = 8 ∧
      (startPolling sampleEnv false [okBatch [5, 6, 7], okBatch [1]]).2.offset = 2 ∧
      ¬ ((startPolling sampleEnv false [okBatch [5, 6, 7]]).2.offset ≤
        (startPolling sampleEnv false [okBatch [5, 6, 7], okBatch [1]]).2.offset) := by
  decide

/-- C8, amended: the cursor after an iteration of `startPolling` is at least the cursor before
it for every fetch outcome, provided that the last `update_id` of a non-empty batch is not
below the cursor minus one and is below the largest `int`; on a transport error, a response
with `ok = false`, a nil result and an empty batch the cursor is unchanged. -/
theorem cursor_monotone (env : Env) (st : PollState) (r : Outcome)
    (h : ∀ resp result, r = Except.ok resp → resp.Ok = true → resp.Result = some result →
      ∀ last ∈ ((env.unmarshalRawMessages result).1).getLast?,
        st.offset ≤ env.updateId last + 1 ∧ env.updateId last < maxInt) :
    st.offset ≤ (exec st (iteration env st r)).offset ∧
      ((∀ resp result, r = Except.ok resp → resp.Ok = true → resp.Result = some result →
          (env.unmarshalRawMessages result).1 = []) →
        (exec st (iteration env st r)).offset = st.offset) := by
  cases r with
  | error err => exact ⟨le_refl _, fun _ => rfl⟩
  | ok resp =>
    cases hok : resp.Ok with
    | false =>
      rw [exec_iteration, loopBody_not_ok env st resp hok]
      exact ⟨le_refl _, fun _ => rfl⟩
    | true =>
      cases hres : resp.Result with
      | none =>
        rw [exec_iteration, loopBody_nil_result env st resp hok hres]
        exact ⟨le_refl _, fun _ => rfl⟩
      | some result =>
        by_cases hne : (env.unmarshalRawMessages result).1 = []
        · rw [exec_iteration_empty env st resp result hok hres hne]
          exact ⟨le_refl _, fun _ => rfl⟩
        · rw [exec_iteration_batch env st resp result _ hok hres rfl hne]
          have hl := h resp result rfl hok hres _ (List.getLast?_eq_getLast _ hne)
          refine ⟨?_, fun hall => absurd (hall resp result rfl hok hres) hne⟩
          show st.offset ≤ intAdd _ 1
          rw [intAdd_one _ (env.updateId_range _).1 hl.2]
          exact hl.1

/-- C8, amended, on the sample batch 8, 9 received with the cursor at 8. -/
theorem cursor_monotone_witness :
    (startPolling sampleEnv false [okBatch [5, 6, 7]]).2.offset = 8 ∧
      (8 : Int) ≤ (startPolling sampleEnv false [okBatch [5, 6, 7], okBatch [8, 9]]).2.offset := by
  have h := cursor_monotone sampleEnv (startPolling sampleEnv false [okBatch [5, 6, 7]]).2
    (okBatch [8, 9]) (by
      intro resp result hr hok hres last hlast
      have hresp : resp = { Ok := true, Result := some (sampleBatch [8, 9]), Description := "" } :=
        (Except.ok.inj hr).symm
      subst hresp
      have hresult : result = sampleBatch [8, 9] := (Option.some.inj hres).symm
      subst hresult
      have hl : ((sampleEnv.unmarshalRawMessages (sampleBatch [8, 9])).1).getLast? =
          some (sampleUpdate 9) := by decide
      rw [hl] at hlast
      have hlast9 : last = sampleUpdate 9 := (Option.some.inj hlast).symm
      subst hlast9
      decide)
  exact ⟨by decide, h.1⟩

/-- C9 fails: on the batch 5, 6, 7 the iteration assigns the cursor before the first send, so
that the cursor, at 8, is beyond three envelopes not yet on the channel. -/
theorem cursor_advanced_before_sends :
    ¬ advancesAfterSends [sampleUpdate 5, sampleUpdate 6, sampleUpdate 7]
        (iteration sampleEnv (initState false) (okBatch [5, 6, 7])) ∧
      ¬ neverPastUnsent sampleEnv (initState false)
        [sampleUpdate 5, sampleUpdate 6, sampleUpdate 7]
        (iteration sampleEnv (initState false) (okBatch [5, 6, 7])) := by
  constructor
  · intro h
    have h5 := h 1 (by decide) (Or.inl ⟨8, by decide⟩) (sampleUpdate 5) (by decide)
    revert h5
    decide
  · intro h
    have h5 := h 2 (by decide) (sampleUpdate 5) (by decide) (by decide)
    revert h5
    decide

/-- C9, amended: an iteration of `startPolling` that processes a non-empty batch with clean
mode off first sets the cursor and the offset request parameter to the `update_id` of the last
envelope plus one, then sends every envelope of the batch in order; all the sends come before
the next fetch, which is the first request to carry the new offset. -/
theorem cursor_advance_then_sends (env : Env) (st : PollState) (resp : Response)
    (result : RawMessage) (batch : List RawUpdate)
    (hclean : st.clean = false) (hok : resp.Ok = true) (hres : resp.Result = some result)
    (hdec : (env.unmarshalRawMessages result).1 = batch) (hne : batch ≠ []) :
    iteration env st (Except.ok resp) =
        [Effect.get "getUpdates" st.v,
         Effect.assignOffset (intAdd (env.updateId (batch.getLast hne)) 1),
         Effect.setValue "offset" (Itoa (intAdd (env.updateId (batch.getLast hne)) 1))] ++
          batch.map Effect.send ∧
      ∀ next : Outcome, ∃ tail : List Effect,
        (pollLoop env st [Except.ok resp, next]).1 =
          iteration env st (Except.ok resp) ++
            Effect.get "getUpdates"
              (Values.Set st.v "offset" (Itoa (intAdd (env.updateId (batch.getLast hne)) 1))) ::
              tail ∧
        fetches tail = [] := by
  have hit : iteration env st (Except.ok resp) =
      [Effect.get "getUpdates" st.v,
       Effect.assignOffset (intAdd (env.updateId (batch.getLast hne)) 1),
       Effect.setValue "offset" (Itoa (intAdd (env.updateId (batch.getLast hne)) 1))] ++
        batch.map Effect.send := by
    rw [iteration, loopBody_batch env st resp result batch hok hres hdec hne, hclean]
    rfl
  refine ⟨hit, fun next => ⟨loopBody env (exec st (iteration env st (Except.ok resp))) next, ?_,
    fetches_loopBody _ _ _⟩⟩
  simp only [pollLoop_cons, pollLoop, List.append_nil]
  rw [iteration.eq_1 env (exec st (iteration env st (Except.ok resp))) next,
    exec_iteration_batch env st resp result batch hok hres hdec hne]

/-- C9, amended, on the sample batch 5, 6, 7: cursor and parameter are set, then come the three
sends. -/
theorem cursor_advance_then_sends_witness :
    iteration sampleEnv (initState false) (okBatch [5, 6, 7]) =
      [Effect.get "getUpdates" [("offset", ["0"]), ("timeout", ["0"])],
       Effect.assignOffset 8, Effect.setValue "offset" "8",
       Effect.send (sampleUpdate 5), Effect.send (sampleUpdate 6), Effect.send (sampleUpdate 7)] :=
  (cursor_advance_then_sends sampleEnv (initState false)
    { Ok := true, Result := some (sampleBatch [5, 6, 7]), Description := "" }
    (sampleBatch [5, 6, 7]) [sampleUpdate 5, sampleUpdate 6, sampleUpdate 7]
    rfl rfl rfl (by decide) (by decide)).1.trans (by decide)

/-! ## Decode failures -/

/-- C10 fails: on a successful response whose result is not an array the decoder returns an
error, and the iteration is the very one of an empty batch, with no log entry. -/
theorem decode_error_as_empty_batch :
    (sampleEnv.unmarshalRawMessages (bytes "\x7b\x7d")).2 ≠ none ∧
      iteration sampleEnv (initState true) (Except.ok malformedResponse) =
        iteration sampleEnv (initState true) (okBatch []) ∧
      iteration sampleEnv (initState true) (Except.ok malformedResponse) =
        [Effect.get "getUpdates" [("offset", ["0"]), ("timeout", ["0"])],
         Effect.assignClean false] := by
  decide

/-- C10, amended: on a successful response whose non-nil result fails to decode, the slice
staying nil, the error returned by the decode step is discarded: the iteration is the one of an
empty batch. It logs nothing, does not sleep, sends nothing, leaves the cursor and the request
parameters unchanged, turns clean mode off, and the loop goes on to the next fetch. -/
theorem decode_error_discarded (env : Env) (st : PollState) (resp : Response)
    (result : RawMessage) (e : String) (hok : resp.Ok = true) (hres : resp.Result = some result)
    (hdec : env.unmarshalRawMessages result = ([], some e)) :
    iteration env st (Except.ok resp) =
        [Effect.get "getUpdates" st.v, Effect.assignClean false] ∧
      exec st (iteration env st (Except.ok resp)) = { st with clean := false } ∧
      (∀ (env0 : Env) (r0 : Response) (res0 : RawMessage), r0.Ok = true →
        r0.Result = some res0 → env0.unmarshalRawMessages res0 = ([], none) →
        iteration env0 st (Except.ok r0) = iteration env st (Except.ok resp)) ∧
      ∀ next : Outcome,
        (pollLoop env st [Except.ok resp, next]).1 =
          iteration env st (Except.ok resp) ++ Effect.get "getUpdates" st.v ::
            loopBody env { st with clean := false } next := by
  have hb : (env.unmarshalRawMessages result).1 = [] := by rw [hdec]
  have hit : iteration env st (Except.ok resp) =
      [Effect.get "getUpdates" st.v, Effect.assignClean false] := by
    rw [iteration, loopBody_empty env st resp result hok hres hb]
  have hex := exec_iteration_empty env st resp result hok hres hb
  refine ⟨hit, hex, ?_, ?_⟩
  · intro env0 r0 res0 hok0 hres0 hdec0
    have hb0 : (env0.unmarshalRawMessages res0).1 = [] := by rw [hdec0]
    rw [hit, iteration, loopBody_empty env0 st r0 res0 hok0 hres0 hb0]
  · intro next
    simp only [pollLoop_cons, pollLoop, List.append_nil, hex]
    rfl

/-- C10, amended, on the sample response whose result is a JSON object. -/
theorem decode_error_discarded_witness :
    malformedResponse.Ok = true ∧
      logs (iteration sampleEnv (initState true) (Except.ok malformedResponse)) = [] ∧
      exec (initState true) (iteration sampleEnv (initState true) (Except.ok malformedResponse)) =
        { initState true with clean := false } := by
  have h := decode_error_discarded sampleEnv (initState true) malformedResponse
    (bytes "\x7b\x7d") "json: cannot unmarshal into Go value of type []json.RawMessage"
    rfl rfl (by decide)
  refine ⟨rfl, ?_, h.2.1⟩
  rw [h.1]
  rfl

/-! ## `GetListenUrl` and `SetWebhook` -/

/-- C16: for every `Webhook` `w`, `GetListenUrl` returns the host, a colon and the decimal port,
the host being `w.Serve`, or `"0.0.0.0"` when `w.Serve` is empty, and the port `w.ServePort`, or
443 when `w.ServePort` is 0. The result is a function of `w` alone, and the defaults it fills in
are those of the result: asking again for a `Webhook` holding them gives the same address. -/
theorem GetListenUrl_eq (w : Webhook) :
    GetListenUrl w =
        (if w.Serve = "" then "0.0.0.0" else w.Serve) ++ ":" ++
          Itoa (if w.ServePort = 0 then 443 else w.ServePort) ∧
      StartWebhook_listen w = GetListenUrl w ∧
      GetListenUrl
          { w with
            Serve := if w.Serve = "" then "0.0.0.0" else w.Serve
            ServePort := if w.ServePort = 0 then 443 else w.ServePort } =
        GetListenUrl w := by
  refine ⟨?_, rfl, ?_⟩
  · unfold GetListenUrl
    by_cases hs : w.Serve = "" <;> by_cases hp : w.ServePort = 0 <;> simp [hs, hp]
  · unfold GetListenUrl
    by_cases hs : w.Serve = "" <;> by_cases hp : w.ServePort = 0 <;> simp [hs, hp]

/-- C11: `SetWebhook(path, webhook)` issues one `setWebhook` call, whose parameters are `url`,
the webhook URL, a slash and the path, `max_connections`, the decimal rendering of
`MaxConnections`, and `allowed_updates`, the JSON encoding of `AllowedUpdates`, a nil
`AllowedUpdates` being sent as `[]`. It returns an error exactly when the call fails, and
otherwise the boolean decoded from the result. -/
theorem SetWebhook_call (env : Env) (m : StringsMarshal) (path : String) (webhook : Webhook)
    (r : Outcome) :
    (SetWebhook env m path webhook r).2 =
        [Effect.get "setWebhook"
          [("url", [webhook.URL ++ "/" ++ path]),
           ("max_connections", [Itoa webhook.MaxConnections]),
           ("allowed_updates",
             [(m.marshal (some (webhook.AllowedUpdates.getD []))).1])]] ∧
      (webhook.AllowedUpdates = none →
        (SetWebhook env m path webhook r).2 =
          [Effect.get "setWebhook"
            [("url", [webhook.URL ++ "/" ++ path]),
             ("max_connections", [Itoa webhook.MaxConnections]),
             ("allowed_updates", ["[]"])]]) ∧
      ((∃ e, (SetWebhook env m path webhook r).1.2 = some e) ↔ ∃ err, r = Except.error err) ∧
      (∀ resp, r = Except.ok resp →
        (SetWebhook env m path webhook r).1 =
          ((env.unmarshalBool (resp.Result.getD [])).1, none)) := by
  have hall : (if webhook.AllowedUpdates = none then some [] else webhook.AllowedUpdates) =
      some (webhook.AllowedUpdates.getD []) := by
    cases webhook.AllowedUpdates <;> simp
  have hm : m.marshal (some (webhook.AllowedUpdates.getD [])) =
      ((m.marshal (some (webhook.AllowedUpdates.getD []))).1, none) :=
    Prod.ext rfl (m.marshal_ok _)
  have hes : (SetWebhook env m path webhook r).2 =
      [Effect.get "setWebhook"
        [("url", [webhook.URL ++ "/" ++ path]),
         ("max_connections", [Itoa webhook.MaxConnections]),
         ("allowed_updates",
           [(m.marshal (some (webhook.AllowedUpdates.getD []))).1])]] := by
    unfold SetWebhook
    simp only [hall]
    rw [hm]
    cases r <;> simp [Values.Add]
  refine ⟨hes, ?_, ?_, ?_⟩
  · intro hnil
    rw [hes, hnil]
    simp [m.marshal_empty]
  · unfold SetWebhook
    simp only [hall]
    rw [hm]
    cases r <;> simp
  · intro resp hr
    unfold SetWebhook
    simp only [hall]
    rw [hm, hr]

theorem GetListenUrl_sample : GetListenUrl sampleWebhook = "0.0.0.0:443" := by decide

/-! ## The update channel -/

theorem NewUpdater_updates (env : Env) (token : String) (me : Except String User) (r : Outcome)
    (u : Updater) (hu : (NewUpdater env token me r).1.1 = some u) : u.updates = makeChan 0 := by
  cases me with
  | error e => simp [NewUpdater] at hu
  | ok user =>
    cases r with
    | error e => simp [NewUpdater, RemoveWebhook] at hu
    | ok resp =>
      cases hb : (env.unmarshalBool (resp.Result.getD [])).1 <;>
        simp [NewUpdater, RemoveWebhook, hb] at hu
      rw [← hu]

/-- A step of a conduit whose channel has no buffer is a handoff of the next envelope. -/
theorem step_unbuffered (s t : Conduit) (a : ChanStep) (hc : s.chan = makeChan 0)
    (hstep : s.step a = some t) :
    a = ChanStep.handoff ∧ t.chan = makeChan 0 ∧
      ∃ u, s.pending = u :: t.pending ∧ t.received = s.received ++ [u] := by
  obtain ⟨pending, chan, received⟩ := s
  simp only at hc
  subst hc
  cases a with
  | enqueue =>
    cases pending with
    | nil => simp [Conduit.step] at hstep
    | cons u rest => simp [Conduit.step, Chan.sendBuffered, makeChan] at hstep
  | dequeue => simp [Conduit.step, makeChan] at hstep
  | handoff =>
    cases pending with
    | nil => simp [Conduit.step, makeChan] at hstep
    | cons u rest =>
      simp only [Conduit.step, makeChan, Option.some.injEq] at hstep
      subst hstep
      exact ⟨rfl, rfl, u, rfl, rfl⟩

/-- A run of a conduit whose channel has no buffer consists of handoffs: it moves envelopes from
the sender to the receiver, in order, and leaves none in the channel. -/
theorem run_unbuffered (steps : List ChanStep) (s t : Conduit) (hc : s.chan = makeChan 0)
    (hrun : s.run steps = some t) :
    t.chan = makeChan 0 ∧ t.received ++ t.pending = s.received ++ s.pending ∧
      t.received.length = s.received.length + steps.length ∧
      steps = List.replicate steps.length ChanStep.handoff := by
  induction steps generalizing s with
  | nil =>
    simp only [Conduit.run, Option.some.injEq] at hrun
    subst hrun
    exact ⟨hc, rfl, rfl, rfl⟩
  | cons a rest ih =>
    cases hstep : s.step a with
    | none => simp [Conduit.run, hstep] at hrun
    | some m =>
      simp only [Conduit.run, hstep] at hrun
      obtain ⟨ha, hmc, u, hp, hr⟩ := step_unbuffered s m a hc hstep
      obtain ⟨h1, h2, h3, h4⟩ := ih m hmc hrun
      refine ⟨h1, ?_, ?_, ?_⟩
      · rw [h2, hr, hp]
        simp
      · rw [h3, hr]
        simp
        omega
      · rw [ha, List.length_cons, List.replicate_succ, ← h4]

/-- C12 fails: the channel made by `NewUpdater` has capacity 0, and a send on it cannot complete
by itself: with the Dispatcher not receiving, the first envelope is not taken by the channel. -/
theorem update_channel_send_waits :
    (NewUpdater sampleEnv "token" (Except.ok sampleUser) okTrue).1 =
        (some { Bot := { Token := "token", Id := 42, FirstName := "Sample",
                         UserName := "sample_bot" },
                updates := { cap := 0, buf := [] } }, none) ∧
      (makeChan 0).sendBuffered (sampleUpdate 5) = none ∧
      ({ pending := [sampleUpdate 5], chan := makeChan 0, received := [] } : Conduit).step
        ChanStep.enqueue = none := by
  decide

/-- C12, amended: the update channel created by `NewUpdater` is an unbuffered ordered channel,
of capacity 0. No send completes by itself: each send of the acquisition side waits until the
Dispatcher receives that envelope, so that the channel never holds an envelope. No envelope is
dropped and the envelopes are received in the order they are sent. -/
theorem update_channel_unbuffered (env : Env) (token : String) (me : Except String User)
    (r : Outcome) (u : Updater) (us : List RawUpdate) (steps : List ChanStep) (s : Conduit)
    (hu : (NewUpdater env token me r).1.1 = some u)
    (hrun : (u.conduit us).run steps = some s) :
    u.updates.cap = 0 ∧
      s.chan.buf = [] ∧
      s.step ChanStep.enqueue = none ∧
      steps = List.replicate steps.length ChanStep.handoff ∧
      s.received.length = steps.length ∧
      s.received ++ s.pending = us := by
  have hc : (u.conduit us).chan = makeChan 0 := NewUpdater_updates env token me r u hu
  obtain ⟨h1, h2, h3, h4⟩ := run_unbuffered steps (u.conduit us) s hc hrun
  have hcap : u.updates.cap = 0 := by
    rw [NewUpdater_updates env token me r u hu]
    rfl
  refine ⟨hcap, by rw [h1]; rfl, ?_, h4, by simpa [Updater.conduit] using h3,
    by simpa [Updater.conduit] using h2⟩
  cases hstep : s.step ChanStep.enqueue with
  | none => rfl
  | some t => exact absurd (step_unbuffered s t _ h1 hstep).1 (by decide)

/-- C12, amended, on two sample envelopes handed one after the other to the Dispatcher. -/
theorem update_channel_unbuffered_witness :
    ({ pending := [], chan := makeChan 0,
       received := [sampleUpdate 5, sampleUpdate 6] } : Conduit).step ChanStep.enqueue = none ∧
      [sampleUpdate 5, sampleUpdate 6] ++ [] = [sampleUpdate 5, sampleUpdate 6] := by
  have h := update_channel_unbuffered sampleEnv "token" (Except.ok sampleUser) okTrue
    { Bot := { Token := "token", Id := 42, FirstName := "Sample", UserName := "sample_bot" },
      updates := makeChan 0 }
    [sampleUpdate 5, sampleUpdate 6] [ChanStep.handoff, ChanStep.handoff]
    { pending := [], chan := makeChan 0, received := [sampleUpdate 5, sampleUpdate 6] }
    (by decide) (by decide)
  exact ⟨h.2.2.1, h.2.2.2.2.2⟩

/-! ## `sendFile` -/

/-- C15 fails in one case: with only a path set, when `os.Open` fails, `sendFile` returns the
error of `os.Open` and posts nothing. -/
theorem sendFile_open_failure :
    sendFile pathOnlyFile "photo" "sendPhoto" [] (Except.error "no such file or directory")
        okTrue =
      ((none, some (SendError.os "no such file or directory")),
        [FileEffect.osOpen "/missing/photo.png"]) ∧
      requests (sendFile pathOnlyFile "photo" "sendPhoto" []
        (Except.error "no such file or directory") okTrue).2 = [] := by
  decide

/-- C15, amended: `sendFile` chooses the upload variant by strict precedence. If `FileId` is
non-empty it adds the parameter `fileType = FileId` and issues a plain `Get`, whatever `Path` and
`Reader` are; else if `Path` is non-empty it opens that path and, the open succeeding, posts the
file, and the open failing, returns the error of the open without issuing a request; else if
`Reader` is non-nil it posts the reader. It returns the error "the message had no files that
could be sent" without issuing any request exactly when `FileId` and `Path` are empty and
`Reader` is nil. -/
theorem sendFile_precedence (msg : file) (fileType endpoint : String) (params : Values)
    (opened : Except String Unit) (r : Outcome) :
    (msg.FileId ≠ "" →
        sendFile msg fileType endpoint params opened r =
          (requestResult r,
            [FileEffect.paramsAdd fileType msg.FileId,
             FileEffect.get endpoint (Values.Add params fileType msg.FileId)])) ∧
      (msg.FileId = "" → msg.Path ≠ "" →
        (opened = Except.ok () →
          sendFile msg fileType endpoint params opened r =
            (requestResult r,
              [FileEffect.osOpen msg.Path,
               FileEffect.post fileType endpoint params (FileSource.opened msg.Path) msg.Name,
               FileEffect.close msg.Path])) ∧
        (∀ e, opened = Except.error e →
          sendFile msg fileType endpoint params opened r =
            ((none, some (SendError.os e)), [FileEffect.osOpen msg.Path]))) ∧
      (msg.FileId = "" → msg.Path = "" → ∀ reader, msg.Reader = some reader →
        sendFile msg fileType endpoint params opened r =
          (requestResult r,
            [FileEffect.post fileType endpoint params (FileSource.reader reader) msg.Name])) ∧
      (((sendFile msg fileType endpoint params opened r).1 =
            (none, some (SendError.new "the message had no files that could be sent")) ∧
          requests (sendFile msg fileType endpoint params opened r).2 = []) ↔
        (msg.FileId = "" ∧ msg.Path = "" ∧ msg.Reader = none)) := by
  refine ⟨?_, ?_, ?_, ?_⟩
  · intro hid
    simp [sendFile, hid]
  · intro hid hpath
    refine ⟨?_, ?_⟩
    · intro hopen
      simp [sendFile, hid, hpath, hopen]
    · intro e hopen
      simp [sendFile, hid, hpath, hopen]
  · intro hid hpath reader hreader
    simp [sendFile, hid, hpath, hreader]
  · by_cases hid : msg.FileId = ""
    · by_cases hpath : msg.Path = ""
      · cases hreader : msg.Reader with
        | none => simp [sendFile, hid, hpath, hreader, requests]
        | some reader =>
          cases r <;> simp [sendFile, hid, hpath, hreader, requests, requestResult]
      · cases opened <;> cases r <;> simp [sendFile, hid, hpath, requests, requestResult]
    · cases r <;> simp [sendFile, hid, requests, requestResult]

/-- C15, amended, on a `file` of which only the URL is set: the error, and no request. -/
theorem sendFile_precedence_witness :
    sendFile urlOnlyFile "photo" "sendPhoto" [] (Except.ok ()) okTrue =
      ((none, some (SendError.new "the message had no files that could be sent")), []) := by
  have h := (sendFile_precedence urlOnlyFile "photo" "sendPhoto" [] (Except.ok ()) okTrue).2.2.2
  have h2 := h.mpr ⟨rfl, rfl, rfl⟩
  exact Prod.ext h2.1 (by decide)

/-! ## The request parameters follow the cursor -/

theorem initState_v (clean : Bool) : (initState clean).v = pollParams (initState clean).offset := by
  cases clean <;> decide

/-- An iteration keeps the request parameters in step with the cursor. -/
theorem iteration_keeps_params (env : Env) (st : PollState) (r : Outcome)
    (hv : st.v = pollParams st.offset) :
    (exec st (iteration env st r)).v = pollParams (exec st (iteration env st r)).offset := by
  cases r with
  | error err => exact hv
  | ok resp =>
    cases hok : resp.Ok with
    | false =>
      rw [exec_iteration, loopBody_not_ok env st resp hok]
      exact hv
    | true =>
      cases hres : resp.Result with
      | none =>
        rw [exec_iteration, loopBody_nil_result env st resp hok hres]
        exact hv
      | some result =>
        by_cases hne : (env.unmarshalRawMessages result).1 = []
        · rw [exec_iteration_empty env st resp result hok hres hne]
          exact hv
        · rw [exec_iteration_batch env st resp result _ hok hres rfl hne]
          simp [hv, pollParams, Values.Set]

theorem pollLoop_keeps_params (env : Env) (rs : List Outcome) (st : PollState)
    (hv : st.v = pollParams st.offset) :
    (pollLoop env st rs).2.v = pollParams (pollLoop env st rs).2.offset := by
  induction rs generalizing st with
  | nil => exact hv
  | cons r rs ih =>
    rw [pollLoop_cons]
    exact ih _ (iteration_keeps_params env st r hv)

theorem fetches_pollLoop (env : Env) (rs : List Outcome) (st : PollState)
    (hv : st.v = pollParams st.offset) :
    fetches (pollLoop env st rs).1 =
      (List.range rs.length).map (fun k => pollParams (pollLoop env st (rs.take k)).2.offset) := by
  induction rs generalizing st with
  | nil => rfl
  | cons r rs ih =>
    rw [pollLoop_cons, fetches_append, List.length_cons, List.range_succ_eq_map,
      ih _ (iteration_keeps_params env st r hv)]
    simp [iteration, fetches, fetches_loopBody, pollLoop, hv, pollLoop_cons]

/-- C13: the fetches of `startPolling` carry, one after the other, the parameters
`offset` = decimal rendering of the cursor at the time of the fetch and `timeout` = `"0"`, and
nothing else: the first carries offset `"0"`, and the fetch after an iteration that left the
cursor at `c` carries the rendering of `c`. After any number of iterations the parameters held
by the loop are those of its cursor. -/
theorem startPolling_fetch_params (env : Env) (clean : Bool) (rs : List Outcome) :
    fetches (startPolling env clean rs).1 =
        (List.range rs.length).map
          (fun k => pollParams (startPolling env clean (rs.take k)).2.offset) ∧
      (∀ r, fetches (startPolling env clean (r :: rs)).1 =
        [("offset", ["0"]), ("timeout", ["0"])] ::
          (fetches (startPolling env clean (r :: rs)).1).tail) ∧
      (startPolling env clean rs).2.v = pollParams (startPolling env clean rs).2.offset ∧
      (∀ c, Values.Get (pollParams c) "offset" = Itoa c ∧
        Values.Get (pollParams c) "timeout" = "0") := by
  refine ⟨fetches_pollLoop env rs _ (initState_v clean), fun r => ?_,
    pollLoop_keeps_params env rs _ (initState_v clean), fun c => ?_⟩
  · simp only [startPolling, pollLoop_cons, fetches_append, iteration, fetches, if_true,
      List.cons_append, List.tail_cons]
    rw [initState_v]
    rfl
  · simp [pollParams, Values.Get]

theorem startPolling_fetch_params_sample :
    fetches (startPolling sampleEnv false [okBatch [5, 6, 7], okBatch [], okBatch [8, 9]]).1 =
      [[("offset", ["0"]), ("timeout", ["0"])], [("offset", ["8"]), ("timeout", ["0"])],
       [("offset", ["8"]), ("timeout", ["0"])]] := by
  decide

/-! ## Clean mode -/

theorem pollLoop_state_append (env : Env) (xs ys : List Outcome) (st : PollState) :
    (pollLoop env st (xs ++ ys)).2 = (pollLoop env (pollLoop env st xs).2 ys).2 := by
  induction xs generalizing st with
  | nil => rfl
  | cons r xs ih =>
    rw [List.cons_append, pollLoop_cons, pollLoop_cons]
    exact ih _

/-- An iteration changes the clean flag only on an outcome that leaves an empty batch. -/
theorem iteration_clean (env : Env) (st : PollState) (r : Outcome)
    (hr : leavesEmptyBatch env r = false) :
    (exec st (iteration env st r)).clean = st.clean ∧
      (st.clean = true → sends (iteration env st r) = []) := by
  cases r with
  | error err => exact ⟨rfl, fun _ => rfl⟩
  | ok resp =>
    cases hok : resp.Ok with
    | false =>
      rw [exec_iteration, sends_iteration, loopBody_not_ok env st resp hok]
      exact ⟨rfl, fun _ => rfl⟩
    | true =>
      cases hres : resp.Result with
      | none =>
        rw [exec_iteration, sends_iteration, loopBody_nil_result env st resp hok hres]
        exact ⟨rfl, fun _ => rfl⟩
      | some result =>
        have hne : (env.unmarshalRawMessages result).1 ≠ [] := by
          simpa [leavesEmptyBatch, hok, hres] using hr
        rw [exec_iteration_batch env st resp result _ hok hres rfl hne,
          sends_iteration_batch env st resp result _ hok hres rfl hne]
        exact ⟨rfl, fun hc => by simp [hc]⟩

/-- C14 fails: a successful response whose result does not decode is no empty batch, yet it
turns clean mode off. -/
theorem clean_off_on_decode_error :
    decodesToEmptyBatch sampleEnv (Except.ok malformedResponse) = false ∧
      (initState true).clean = true ∧
      (startPolling sampleEnv true [Except.ok malformedResponse]).2.clean = false := by
  decide

/-- C14, amended: the clean flag is turned off only by a successful response whose non-nil
result leaves an empty batch, because it decodes to one or because it does not decode. For
every sequence of fetch outcomes processed while clean is true and containing no such response,
clean is still true afterwards, every non-empty batch of the sequence has put the cursor at its
last `update_id` plus one, and nothing has been sent on the update channel; a transport error,
a response with `ok = false` and a successful response with a nil result leave the flag as it
is. -/
theorem clean_mode_kept (env : Env) (st : PollState) (rs : List Outcome)
    (hclean : st.clean = true) (hrs : ∀ r ∈ rs, leavesEmptyBatch env r = false) :
    (pollLoop env st rs).2.clean = true ∧
      sends (pollLoop env st rs).1 = [] ∧
      (∀ (k : Nat) (resp : Response) (result : RawMessage)
          (hne : (env.unmarshalRawMessages result).1 ≠ []),
        rs[k]? = some (Except.ok resp) → resp.Ok = true → resp.Result = some result →
        (pollLoop env st (rs.take (k + 1))).2.offset =
          intAdd (env.updateId (((env.unmarshalRawMessages result).1).getLast hne)) 1) ∧
      (∀ (s : PollState) (r : Outcome),
        (exec s (iteration env s r)).clean ≠ s.clean → leavesEmptyBatch env r = true) ∧
      (∀ (s : PollState) (err : String),
        (exec s (iteration env s (Except.error err))).clean = s.clean) ∧
      (∀ (s : PollState) (resp : Response), resp.Ok = false →
        (exec s (iteration env s (Except.ok resp))).clean = s.clean) ∧
      (∀ (s : PollState) (resp : Response), resp.Ok = true → resp.Result = none →
        (exec s (iteration env s (Except.ok resp))).clean = s.clean) := by
  refine ⟨?_, ?_, ?_, ?_, ?_, ?_, ?_⟩
  · induction rs generalizing st with
    | nil => exact hclean
    | cons r rs ih =>
      rw [pollLoop_cons]
      have hit := iteration_clean env st r (hrs r (List.mem_cons_self _ _))
      exact ih _ (hit.1.trans hclean) (fun x hx => hrs x (List.mem_cons_of_mem _ hx))
  · induction rs generalizing st with
    | nil => rfl
    | cons r rs ih =>
      rw [pollLoop_cons, sends_append]
      have hit := iteration_clean env st r (hrs r (List.mem_cons_self _ _))
      rw [hit.2 hclean, ih _ (hit.1.trans hclean) (fun x hx => hrs x (List.mem_cons_of_mem _ hx))]
      rfl
  · intro k resp result hne hk hok hres
    have hlt : k < rs.length := by
      by_contra hge
      rw [List.getElem?_eq_none (by omega)] at hk
      exact absurd hk (by simp)
    have htake : rs.take (k + 1) = rs.take k ++ [Except.ok resp] := by
      rw [List.take_succ, hk]
      rfl
    rw [htake, pollLoop_state_append, pollLoop_cons]
    simp only [pollLoop]
    rw [exec_iteration_batch env _ resp result _ hok hres rfl hne]
  · intro s r hchange
    cases hl : leavesEmptyBatch env r with
    | true => rfl
    | false => exact absurd (iteration_clean env s r hl).1 hchange
  · intro s err
    exact (iteration_clean env s (Except.error err) rfl).1
  · intro s resp hok
    exact (iteration_clean env s _ (by simp [leavesEmptyBatch, hok])).1
  · intro s resp hok hres
    exact (iteration_clean env s _ (by simp [leavesEmptyBatch, hok, hres])).1

/-- C14, amended, on the sample sequence of a batch, a transport error, a response with
`ok = false` and a second batch. -/
theorem clean_mode_kept_witness :
    (startPolling sampleEnv true
        [okBatch [5, 6, 7], Except.error "timeout", Except.ok notOkResponse,
         okBatch [8, 9]]).2.clean = true ∧
      sends (startPolling sampleEnv true
        [okBatch [5, 6, 7], Except.error "timeout", Except.ok notOkResponse,
         okBatch [8, 9]]).1 = [] := by
  have h := clean_mode_kept sampleEnv (initState true)
    [okBatch [5, 6, 7], Except.error "timeout", Except.ok notOkResponse, okBatch [8, 9]]
    rfl (by decide)
  exact ⟨h.1, h.2.1⟩

end Gotgbot
